import Mathlib

/-!
Shallow embedding of the dungeon-generation / occupancy / pathfinding core of
the tonzo-studios rogue-like (src/misc.py, src/level.py, src/entities.py,
src/action_manager.py, src/behavior.py, src/render.py), together with the
dungeon lifecycle of §4.6 of the specification (whose implementing module is
not under src/, only its tests and callers are; those parts are modelled from
the spec and marked as such).

Python's mutable objects are embedded as explicit state passing: a `Level`
value plays the role of the `Level` instance, and functions return the updated
level.  The boolean tile layers (`walkable`, `transparent`, `fov`, `explored`)
are embedded as total functions `Vector → Bool` with pointwise update, the
denotation of the `Tilemap` wrapper; entity identity (Python object identity)
is embedded as a numeric `eid` field.
-/

namespace RogueLike

/-- Python `misc.Vector`: an integer pair with component-wise addition/subtraction. -/
structure Vector where
  x : Int
  y : Int
deriving DecidableEq

instance : Add Vector := ⟨fun a b => ⟨a.x + b.x, a.y + b.y⟩⟩

instance : Sub Vector := ⟨fun a b => ⟨a.x - b.x, a.y - b.y⟩⟩

theorem Vector.add_def (a b : Vector) : a + b = ⟨a.x + b.x, a.y + b.y⟩ := rfl

theorem Vector.sub_def (a b : Vector) : a - b = ⟨a.x - b.x, a.y - b.y⟩ := rfl

/-- The squared Euclidean distance between two positions.  `Entity.distance_to`
returns the real norm `sqrt(dx^2+dy^2)`; the only use in the embedded code is
the comparison `distance_to(dest) >= 2`, which is exactly `dist2 >= 4`. -/
def dist2 (a b : Vector) : Int :=
  (a.x - b.x) ^ 2 + (a.y - b.y) ^ 2

/-- A boolean tile layer (`level.Tilemap` over a boolean array), embedded as a
total function with pointwise update. -/
abbrev Tilemap := Vector → Bool

/-- Python `Tilemap.__setitem__`: write one cell, leaving every other cell unchanged. -/
def Tilemap.set (t : Tilemap) (p : Vector) (v : Bool) : Tilemap :=
  fun q => if q = p then v else t q

theorem Tilemap.set_same (t : Tilemap) (p : Vector) (v : Bool) :
    t.set p v p = v := by simp [Tilemap.set]

theorem Tilemap.set_other (t : Tilemap) (p q : Vector) (v : Bool) (h : q ≠ p) :
    t.set p v q = t q := by simp [Tilemap.set, h]

/-- Python `level.Room.__init__`: rectangle given by top-left corner and size. -/
structure Room where
  x1 : Int
  y1 : Int
  x2 : Int
  y2 : Int
deriving DecidableEq

/-- The `Room(x, y, width, height)` constructor. -/
def Room.make (x y width height : Int) : Room :=
  ⟨x, y, x + width, y + height⟩

/-- Python `Room.center`: `(int((x1+x2)/2), int((y1+y2)/2))`.  All generated rooms
have nonnegative coordinates, where Python's truncation agrees with `Int.div`. -/
def Room.center (r : Room) : Vector :=
  ⟨Int.tdiv (r.x1 + r.x2) 2, Int.tdiv (r.y1 + r.y2) 2⟩

/-- Python `Room.intersect`: closed-interval rectangle overlap. -/
def Room.intersect (r other : Room) : Bool :=
  decide (r.x1 ≤ other.x2) && decide (r.x2 ≥ other.x1) &&
  decide (r.y1 ≤ other.y2) && decide (r.y2 ≥ other.y1)

/-- A cell strictly inside the room: the range carved by `Level._init_room`
(`range(x1+1, x2) × range(y1+1, y2)`), which is also the range sampled by
`Level.place_entity_randomly` (`randint(x1+1, x2-1) × randint(y1+1, y2-1)`). -/
def Room.interior (r : Room) (p : Vector) : Bool :=
  decide (r.x1 + 1 ≤ p.x) && decide (p.x ≤ r.x2 - 1) &&
  decide (r.y1 + 1 ≤ p.y) && decide (p.y ≤ r.y2 - 1)

/-- Python `entities.Entity`: the fields the core logic reads.  `eid` stands for
Python object identity (entities are compared by identity in entity lists);
`etype` is the `type` pseudo-type string. -/
structure Entity where
  eid : Nat
  name : String
  etype : String
  blocks : Bool
  pos : Vector
deriving DecidableEq

/-- Python `Entity.move`: `self.pos += direction`.  Note that it updates only the
position; it does not touch any tile layer. -/
def Entity.move (e : Entity) (direction : Vector) : Entity :=
  { e with pos := e.pos + direction }

/-- Python `level.Level`: fixed size, the four tile layers, the accepted-rooms list,
the live entity list, and the two distinguished stair entities. -/
structure Level where
  width : Nat
  height : Nat
  walkable : Tilemap
  transparent : Tilemap
  fov : Tilemap
  explored : Tilemap
  rooms : List Room
  entities : List Entity
  upStairs : Entity
  downStairs : Entity

/-- In-bounds test for a cell of a `width × height` level. -/
def Level.inBounds (lv : Level) (p : Vector) : Bool :=
  decide (0 ≤ p.x) && decide (p.x < (lv.width : Int)) &&
  decide (0 ≤ p.y) && decide (p.y < (lv.height : Int))

/-- Python `Level.get_blocking_entity_at_location`: first entity of the list that sits
at `pos` and blocks, if any. -/
def Level.get_blocking_entity_at_location (lv : Level) (pos : Vector) : Option Entity :=
  lv.entities.find? (fun e => decide (e.pos = pos) && e.blocks)

/-- Modelled from the spec: `Entity.place` (§4.5 Entity Placement & Occupancy
Sync).  The entities module defining it is not under src/ (only its tests in
src/tests/test_entities.py and its callers in src/level.py are).  If the entity
already belongs to this level it is removed from the entity list first, and if
it was blocking its old cell is marked walkable again; the entity is then
appended at the new position, and if it blocks the new cell is marked
non-walkable.  `Level.removeById` is the removal half: drop the entity with
the given identity from the list and, if it was blocking, free its cell. -/
def Level.removeById (lv : Level) (eid : Nat) : Level :=
  match lv.entities.find? (fun x => decide (x.eid = eid)) with
  | none => lv
  | some old =>
    { lv with
      entities := lv.entities.filter (fun x => !decide (x.eid = eid)),
      walkable := if old.blocks then lv.walkable.set old.pos true else lv.walkable }

/-- The placement itself: remove any previous occurrence (see
`Level.removeById`), then append at the new position and block the cell if the
entity blocks. -/
def Entity.place (e : Entity) (lv : Level) (pos : Vector) : Level :=
  let lv1 := lv.removeById e.eid
  let e2 : Entity := { e with pos := pos }
  { lv1 with
    entities := lv1.entities ++ [e2],
    walkable := if e2.blocks then lv1.walkable.set pos false else lv1.walkable }

/-- A deterministic stream of natural numbers standing for the `random` module:
`stream` supplies the raw draws and `k` is the number of draws consumed so far. -/
structure Rng where
  stream : Nat → Nat
  k : Nat

/-- Consume one raw draw. -/
def Rng.next (r : Rng) : Nat × Rng :=
  (r.stream r.k, ⟨r.stream, r.k + 1⟩)

/-- Python `random.randint(a, b)`: a uniform draw from the closed interval `[a, b]`,
derived from one raw draw.  Defined for `a ≤ b` (Python raises otherwise);
theorems that depend on the drawn value carry that bound as a hypothesis. -/
def randint (a b : Int) (raw : Nat) : Int :=
  a + Int.emod (raw : Int) (b - a + 1)

theorem randint_mem (a b : Int) (raw : Nat) (h : a ≤ b) :
    a ≤ randint a b raw ∧ randint a b raw ≤ b := by
  have hpos : (0 : Int) < b - a + 1 := by omega
  have h1 : 0 ≤ Int.emod (raw : Int) (b - a + 1) := Int.emod_nonneg _ (by omega)
  have h2 : Int.emod (raw : Int) (b - a + 1) < b - a + 1 := Int.emod_lt_of_pos _ hpos
  constructor <;> [skip; skip] <;> simp only [randint] <;> omega

/-- The type of a field-of-view algorithm: from the transparent layer, the
observer position, the radius and the `light_walls` flag it produces the new
`fov` layer.  `tdl.map.Map.compute_fov` (an external library) has this shape —
it reads the transparency data and rewrites the `fov` array, and touches
nothing else; the algorithm itself is a parameter of the embedding. -/
abbrev VisFun := Tilemap → Vector → Nat → Bool → Tilemap

/-- Modelled from the spec (§4.3, the visibility algorithm is inside the
external tdl library): a radius-limited, symmetric visibility used to
instantiate `VisFun` on concrete examples.  On the fully transparent maps used
in those examples every compliant algorithm marks exactly the cells within the
radius; in particular the observer cell itself is always visible. -/
def specFov : VisFun :=
  fun transparent observer radius light_walls c =>
    decide (dist2 c observer ≤ (radius : Int) ^ 2) &&
      (transparent c || decide (c = observer) || light_walls)

/-- Python `Level.compute_fov`: delegate to the library FOV routine, which rewrites
the `fov` layer from the transparent layer and the arguments.  No other layer
is touched — in particular `explored` is not. -/
def Level.compute_fov (lv : Level) (vis : VisFun) (pos : Vector) (radius : Nat)
    (light_walls : Bool) : Level :=
  { lv with fov := vis lv.transparent pos radius light_walls }

/-- Python `render.render_all`, restricted to its effect on the game state: when
`fov_recompute` is set it walks every in-bounds cell and, for each cell whose
`fov` is true, draws it and sets `explored` to true; cells outside the fov are
drawn from memory without being modified.  All console drawing and blitting is
output-only and does not appear in the state. -/
def render_all (lv : Level) (fov_recompute : Bool) : Level :=
  if fov_recompute then
    { lv with
      explored := fun p => if lv.inBounds p && lv.fov p then true else lv.explored p }
  else lv

/-- The eight king-move directions of the grid. -/
def dirs8 : List Vector :=
  [⟨-1, -1⟩, ⟨0, -1⟩, ⟨1, -1⟩, ⟨-1, 0⟩, ⟨1, 0⟩, ⟨-1, 1⟩, ⟨0, 1⟩, ⟨1, 1⟩]

/-- One legal pathfinding step on a walkable layer: move to an 8-adjacent cell
that is walkable. -/
def PathStep (g : Tilemap) (p q : Vector) : Prop :=
  (q - p) ∈ dirs8 ∧ g q = true

/-- A connecting walkable route exists from `a` to `b` on the layer `g`. -/
def Reachable (g : Tilemap) (a b : Vector) : Prop :=
  Relation.ReflTransGen (PathStep g) a b

/-- Modelled from the spec (§4.4, the search itself lives in the external tdl
library): a fuel-bounded breadth-first search over the walkable layer.  Queue
entries carry the path walked so far in reverse order (excluding the start,
including the entry's cell); cells are marked visited when enqueued.  An empty
list is returned when the queue empties or the fuel runs out — the development
only relies on the soundness direction (a nonempty result implies a route). -/
def bfsAux (g : Tilemap) (b : Vector) :
    Nat → List (Vector × List Vector) → List Vector → List Vector
  | 0, _, _ => []
  | _ + 1, [], _ => []
  | fuel + 1, (c, path) :: rest, visited =>
    if c = b then path.reverse
    else
      let nbrs := (dirs8.map (fun d => c + d)).filter
        (fun q => g q && !(visited.contains q))
      bfsAux g b fuel (rest ++ nbrs.map (fun q => (q, q :: path))) (visited ++ nbrs)

/-- The search budget: far larger than any level used here. -/
def bfsFuel : Nat := 100000

/-- The path returned by the library search from `a` to `b` on layer `g`:
an ordered list of cells excluding `a` and (when nonempty) ending at `b`. -/
def findPath (g : Tilemap) (a b : Vector) : List Vector :=
  bfsAux g b bfsFuel [(a, [])] [a]

/-- Python `Level.compute_path`: save the walkable state of the two endpoints, force
both walkable, run the library search, then restore both saved values.
Returns the path and the resulting level. -/
def Level.compute_path (lv : Level) (pos1 pos2 : Vector) : List Vector × Level :=
  let pos1_walkable := lv.walkable pos1
  let pos2_walkable := lv.walkable pos2
  let forced := (lv.walkable.set pos1 true).set pos2 true
  let path := findPath forced pos1 pos2
  let restored := (forced.set pos1 pos1_walkable).set pos2 pos2_walkable
  (path, { lv with walkable := restored })

/-- Apply `Entity.move` to the entity with identity `eid` inside the level's
entity list (the Python objects are shared, so mutating the entity mutates the
list element). -/
def Level.moveEntityById (lv : Level) (eid : Nat) (direction : Vector) : Level :=
  { lv with
    entities := lv.entities.map (fun e => if e.eid = eid then e.move direction else e) }

/-- Apply a damage function to the entity with identity `eid`.  `Actor.attack`
and the death bookkeeping only rewrite fields of the attacked actor (hp, and on
death `blocks`/`char`/`name`); the damage arithmetic itself is floating-point
and is abstracted as the parameter. -/
def Level.attackById (lv : Level) (eid : Nat) (atk : Entity → Entity) : Level :=
  { lv with
    entities := lv.entities.map (fun e => if e.eid = eid then atk e else e) }

/-- The FOV constants of `display_manager.py` used by the dungeon's
`recompute_fov`. -/
def FOV_RADIUS : Nat := 10

/-- Python `FOV_LIGHT_WALLS` of `display_manager.py`. -/
def FOV_LIGHT_WALLS : Bool := true

/-- Modelled from the spec (§4.6): `Dungeon.recompute_fov` re-runs the
visibility engine at the player's position on the current level, with the
display constants. -/
def Level.recompute_fov (lv : Level) (vis : VisFun) (playerPos : Vector) : Level :=
  lv.compute_fov vis playerPos FOV_RADIUS FOV_LIGHT_WALLS

/-- Python `ActionManager.movement_action`, acting on the current level: compute the
destination; if it is walkable, either attack the blocking entity found there
or move the player and recompute the FOV.  The player is the entity with
identity `playerId`; the Python method also returns `True` (a turn was
consumed), which carries no state.  The walkable layer is read but never
written. -/
def movement_action (vis : VisFun) (atk : Entity → Entity) (lv : Level)
    (playerId : Nat) (move_direction : Vector) : Level :=
  match lv.entities.find? (fun e => decide (e.eid = playerId)) with
  | none => lv
  | some player =>
    let dest_pos := player.pos + move_direction
    if lv.walkable dest_pos then
      match lv.get_blocking_entity_at_location dest_pos with
      | some target => lv.attackById target.eid atk
      | none =>
        let lv2 := lv.moveEntityById playerId move_direction
        lv2.recompute_fov vis (player.pos + move_direction)
    else lv

/-- Python `BasicMonster.take_turn` (src/behavior.py).  The caller and target live in
the level `lv` (the `game_map` back-reference).  `snap` abstracts
`Vector.snap_to_grid`, whose octant computation uses floating-point `atan2`;
`atk` abstracts the damage arithmetic as in `movement_action`.  The Python
`for tile in path` loop tests the same snap direction at every non-visible
tile and falls through to the follow-the-path move when that direction is not
walkable, which is what the conditional below denotes. -/
def take_turn (snap : Vector → Vector) (atk : Entity → Entity) (lv : Level)
    (caller target : Entity) : Level :=
  if lv.fov caller.pos then
    if 4 ≤ dist2 caller.pos target.pos then
      let pr := lv.compute_path caller.pos target.pos
      let lv2 := pr.2
      match pr.1 with
      | [] => lv2
      | t0 :: restPath =>
        let direction := snap (target.pos - caller.pos)
        if (t0 :: restPath).any (fun tile => !lv2.fov tile) &&
            lv2.walkable (caller.pos + direction) then
          lv2.moveEntityById caller.eid direction
        else
          lv2.moveEntityById caller.eid (t0 - caller.pos)
    else
      if target.etype = "actor" then lv.attackById target.eid atk else lv
  else lv

/-- Modelled from the spec: the `StairsUp` entity (its class is not under
src/; §4.2 places it at the first room's center, and §4.2 step 8 allows the
down-stairs to share a cell, so stairs are non-blocking). -/
def stairsUp : Entity :=
  { eid := 0, name := "Stairs up", etype := "stairs", blocks := false, pos := ⟨0, 0⟩ }

/-- Modelled from the spec: the `StairsDown` entity, as for `stairsUp`. -/
def stairsDown : Entity :=
  { eid := 1, name := "Stairs down", etype := "stairs", blocks := false, pos := ⟨0, 0⟩ }

/-- The generation parameters of `Level.__init__`. -/
structure GenParams where
  width : Nat
  height : Nat
  room_max_count : Nat
  room_min_size : Nat
  room_max_size : Nat
deriving DecidableEq

/-- The level as `Level.__init__` hands it to `generate`: all four layers
false (`tdl.map.Map` starts cleared, `explored` is built false, and `generate`
immediately rewrites `walkable`/`transparent` to false everywhere), no rooms,
no entities, and the two fresh stair entities. -/
def initLevel (p : GenParams) : Level :=
  { width := p.width, height := p.height,
    walkable := fun _ => false, transparent := fun _ => false,
    fov := fun _ => false, explored := fun _ => false,
    rooms := [], entities := [],
    upStairs := stairsUp, downStairs := stairsDown }

/-- Python `Level._init_room`: carve the interior of the room (`range(x1+1, x2)` in
both axes) to walkable and transparent.  The nested loop writes `true` cell by
cell; its denotation is the pointwise update below. -/
def Level.init_room (lv : Level) (room : Room) : Level :=
  { lv with
    walkable := fun p => if room.interior p then true else lv.walkable p,
    transparent := fun p => if room.interior p then true else lv.transparent p }

/-- Python `Level._create_h_tunnel`: carve the row `y` from `min x1 x2` to
`max x1 x2` inclusive. -/
def Level.create_h_tunnel (lv : Level) (x1 x2 y : Int) : Level :=
  { lv with
    walkable := fun p =>
      if decide (p.y = y) && decide (min x1 x2 ≤ p.x) && decide (p.x ≤ max x1 x2) then true
      else lv.walkable p,
    transparent := fun p =>
      if decide (p.y = y) && decide (min x1 x2 ≤ p.x) && decide (p.x ≤ max x1 x2) then true
      else lv.transparent p }

/-- Python `Level._create_v_tunnel`: carve the column `x` from `min y1 y2` to
`max y1 y2` inclusive. -/
def Level.create_v_tunnel (lv : Level) (y1 y2 x : Int) : Level :=
  { lv with
    walkable := fun p =>
      if decide (p.x = x) && decide (min y1 y2 ≤ p.y) && decide (p.y ≤ max y1 y2) then true
      else lv.walkable p,
    transparent := fun p =>
      if decide (p.x = x) && decide (min y1 y2 ≤ p.y) && decide (p.y ≤ max y1 y2) then true
      else lv.transparent p }

/-- One candidate room of `Level.generate`: random width and height in
`[room_min_size, room_max_size]`, then a random position whose room fits
strictly inside the bounds. -/
def genCandidate (p : GenParams) (rng : Rng) : Room × Rng :=
  let (rw, rng) := rng.next
  let w := randint (p.room_min_size : Int) (p.room_max_size : Int) rw
  let (rh, rng) := rng.next
  let h := randint (p.room_min_size : Int) (p.room_max_size : Int) rh
  let (rx, rng) := rng.next
  let x := randint 0 ((p.width : Int) - w - 1) rx
  let (ry, rng) := rng.next
  let y := randint 0 ((p.height : Int) - h - 1) ry
  (Room.make x y w h, rng)

/-- One iteration of the room loop of `Level.generate`: draw a candidate; if
it intersects any previously accepted room, discard it (the `for … else` falls
to the next slot); otherwise carve it, place the up-stairs at its center when
it is the first room or tunnel it to the previous room's center otherwise, and
append it to the accepted list. -/
def genStep (p : GenParams) (s : Level × Rng) : Level × Rng :=
  let (new_room, rng) := genCandidate p s.2
  let lv := s.1
  if lv.rooms.any (fun room => new_room.intersect room) then (lv, rng)
  else
    let lv := lv.init_room new_room
    let center := new_room.center
    if lv.rooms.isEmpty then
      let lv2 := lv.upStairs.place lv center
      let lv2 := { lv2 with upStairs := { lv.upStairs with pos := center } }
      ({ lv2 with rooms := lv2.rooms ++ [new_room] }, rng)
    else
      let previous := (lv.rooms.getLastD (Room.make 0 0 0 0)).center
      let (rc, rng) := rng.next
      let lv3 :=
        if randint 0 1 rc = 1 then
          (lv.create_h_tunnel previous.x center.x previous.y).create_v_tunnel
            previous.y center.y center.x
        else
          (lv.create_v_tunnel previous.y center.y previous.x).create_h_tunnel
            previous.x center.x center.y
      ({ lv3 with rooms := lv3.rooms ++ [new_room] }, rng)

/-- The room loop of `Level.generate`, run for `n` slots. -/
def genLoop (p : GenParams) : Nat → Level × Rng → Level × Rng
  | 0, s => s
  | n + 1, s => genLoop p n (genStep p s)

/-- Python `Level.place_entity_randomly`: draw positions strictly inside the room
until one passes the overlap check (no entity of the list already at that
position, unless `allow_overlap`), then `entity.place` it there.  The Python
loop is `while True`; the `fuel` argument bounds the number of iterations the
embedding unfolds, and `none` means the loop has not returned within that
budget.  The chosen position is returned alongside (it is the position the
mutated Python entity ends up with). -/
def Level.place_entity_randomly (lv : Level) (entity : Entity) (room : Room)
    (allow_overlap : Bool) (rng : Rng) : Nat → Option (Level × Vector × Rng)
  | 0 => none
  | fuel + 1 =>
    let (rx, rng1) := rng.next
    let x := randint (room.x1 + 1) (room.x2 - 1) rx
    let (ry, rng2) := rng1.next
    let y := randint (room.y1 + 1) (room.y2 - 1) ry
    let position : Vector := ⟨x, y⟩
    if !allow_overlap && lv.entities.any (fun ent => decide (ent.pos = position)) then
      lv.place_entity_randomly entity room allow_overlap rng2 fuel
    else
      some (entity.place lv position, position, rng2)

/-- Python `Level.generate`: run the room loop for `room_max_count` slots, then place
the down-stairs at a random interior position of a room picked by
`random.choice` (which raises on an empty room list — `none` here).  The
`fuel` bounds the down-stairs placement loop as in `place_entity_randomly`. -/
def Level.generate (p : GenParams) (rng : Rng) (fuel : Nat) : Option (Level × Rng) :=
  let s := genLoop p p.room_max_count (initLevel p, rng)
  let lv := s.1
  let (rc, rng1) := s.2.next
  match lv.rooms.get? (rc % lv.rooms.length) with
  | none => none
  | some random_room =>
    match lv.place_entity_randomly lv.downStairs random_room false rng1 fuel with
    | none => none
    | some (lv2, position, rng2) =>
      some ({ lv2 with downStairs := { lv.downStairs with pos := position } }, rng2)

/-- Modelled from the spec: `dungeon.DungeonException` (§4.6, §7).  The module
implementing the dungeon lifecycle is not under src/ — src/dungeon.py holds an
earlier, lifecycle-free revision, and only src/tests/test_dungeon.py and the
callers in src/action_manager.py exercise the lifecycle — so the state machine
is modelled from §4.6. -/
inductive DungeonException where
  | uninitialized
  | alreadyInitialized
  | topLevel
deriving DecidableEq

/-- Modelled from the spec (§3, §4.6): the dungeon holds an ordered list of
levels indexed by 0-based depth, a current-depth cursor (`none` when
uninitialized), and the player reference. -/
structure Dungeon where
  levels : List Level
  current : Option Nat
  player : Option Entity

/-- Modelled from the spec (§4.6): `clear` resets to the uninitialized state,
dropping all levels and the player reference. -/
def Dungeon.clear : Dungeon :=
  { levels := [], current := none, player := none }

/-- Modelled from the spec (§4.6): `initialize` — fails when already active,
otherwise generates depth 0, places the player at its up-stairs and recomputes
the FOV.  `gen` abstracts `Level.__init__` at a given depth.  Named `init`
here. -/
def Dungeon.init (gen : Nat → Level) (vis : VisFun) (player : Entity)
    (d : Dungeon) : Except DungeonException Dungeon :=
  if d.current.isSome then .error .alreadyInitialized
  else
    let lv0 := gen 0
    let pos := lv0.upStairs.pos
    let lv1 := (player.place lv0 pos).recompute_fov vis pos
    .ok { levels := [lv1], current := some 0, player := some { player with pos := pos } }

/-- Modelled from the spec (§4.6): `go_to_next_level` — Active(d) → Active(d+1),
generating depth d+1 the first time it is reached, removing the player from
whichever level held it, placing the player at the target level's up-stairs and
recomputing the FOV.  Fails while uninitialized. -/
def Dungeon.go_to_next_level (gen : Nat → Level) (vis : VisFun)
    (d : Dungeon) : Except DungeonException Dungeon :=
  match d.current, d.player with
  | some idx, some player =>
    let idx2 := idx + 1
    let levels :=
      if d.levels.length ≤ idx2 then d.levels ++ [gen idx2] else d.levels
    let levels2 := levels.map (fun l => l.removeById player.eid)
    match levels2.get? idx2 with
    | none => .error .uninitialized
    | some lv =>
      let pos := lv.upStairs.pos
      let lv2 := (player.place lv pos).recompute_fov vis pos
      .ok { levels := levels2.set idx2 lv2, current := some idx2,
            player := some { player with pos := pos } }
  | _, _ => .error .uninitialized

/-- Modelled from the spec (§4.6): `go_to_previous_level` — Active(d) →
Active(d-1) for d > 0, placing the player at the target level's down-stairs
(re-entering from below); fails with the top-level error at depth 0 and with
the uninitialized error while uninitialized. -/
def Dungeon.go_to_previous_level (vis : VisFun) (d : Dungeon) :
    Except DungeonException Dungeon :=
  match d.current, d.player with
  | some idx, some player =>
    if idx = 0 then .error .topLevel
    else
      let idx2 := idx - 1
      let levels2 := d.levels.map (fun l => l.removeById player.eid)
      match levels2.get? idx2 with
      | none => .error .uninitialized
      | some lv =>
        let pos := lv.downStairs.pos
        let lv2 := (player.place lv pos).recompute_fov vis pos
        .ok { levels := levels2.set idx2 lv2, current := some idx2,
              player := some { player with pos := pos } }
  | _, _ => .error .uninitialized

/-- Modelled from the spec / src/tests/test_dungeon.py: `current_level_number`
is the 1-based depth of the current level (`initialize` yields 1), and raises
while uninitialized. -/
def Dungeon.current_level_number (d : Dungeon) : Except DungeonException Nat :=
  match d.current with
  | none => .error .uninitialized
  | some idx => .ok (idx + 1)

/-- Runs `n` consecutive `go_to_next_level` calls in the `Except` monad. -/
def iterateNext (gen : Nat → Level) (vis : VisFun) (d : Dungeon) :
    Nat → Except DungeonException Dungeon
  | 0 => .ok d
  | n + 1 => (iterateNext gen vis d n).bind (Dungeon.go_to_next_level gen vis)

/-- Runs `m` consecutive `go_to_previous_level` calls in the `Except` monad. -/
def iteratePrev (vis : VisFun) (d : Dungeon) :
    Nat → Except DungeonException Dungeon
  | 0 => .ok d
  | m + 1 => (iteratePrev vis d m).bind (Dungeon.go_to_previous_level vis)

/-- The lifecycle run of claim C6: from the uninitialized dungeon, initialize,
descend `n` times, ascend `m` times, and read `current_level_number`. -/
def lifecycleRun (gen : Nat → Level) (vis : VisFun) (player : Entity)
    (n m : Nat) : Except DungeonException Nat :=
  ((Dungeon.clear.init gen vis player).bind
    (fun d => (iterateNext gen vis d n).bind (fun d2 => iteratePrev vis d2 m))).bind
    Dungeon.current_level_number

/-! ## Claim C2: pathfinding leaves the grid unchanged -/

theorem compute_path_walkable_eq (lv : Level) (a b p : Vector) :
    ((lv.compute_path a b).2).walkable p = lv.walkable p := by
  simp only [Level.compute_path, Tilemap.set]
  by_cases hb : p = b
  · subst hb; simp
  · by_cases ha : p = a
    · subst ha; simp [hb]
    · simp [ha, hb]

/-- C2: for every level and every pair of positions `a`, `b`, after
`compute_path(a, b)` returns, every cell of the walkable layer equals its
value immediately before the call — the endpoints are forced walkable only for
the duration of the computation and then restored — and no other layer or
field of the level changes. -/
theorem C2_compute_path_restores_grid (lv : Level) (a b p : Vector) :
    ((lv.compute_path a b).2).walkable p = lv.walkable p
    ∧ ((lv.compute_path a b).2).transparent = lv.transparent
    ∧ ((lv.compute_path a b).2).explored = lv.explored
    ∧ ((lv.compute_path a b).2).fov = lv.fov
    ∧ ((lv.compute_path a b).2).entities = lv.entities
    ∧ ((lv.compute_path a b).2).rooms = lv.rooms :=
  ⟨compute_path_walkable_eq lv a b p, rfl, rfl, rfl, rfl, rfl⟩

/-! ## Claim C1: the occupancy equivalence and entity movement -/

/-- The player entity used in the C1 scenario: a blocking actor at the
origin. -/
def playerC1 : Entity :=
  { eid := 100, name := "Player", etype := "actor", blocks := true, pos := ⟨0, 0⟩ }

/-- A two-cell corridor level: cells `(0,0)` and `(1,0)` are carved floor
(transparent); the walkable layer already accounts for the blocking player at
`(0,0)` — so the occupancy equivalence of C1 holds before the move. -/
def lvC1 : Level :=
  { width := 3, height := 1,
    walkable := fun p => decide (p = ⟨1, 0⟩),
    transparent := fun p => decide (p = ⟨0, 0⟩ ∨ p = ⟨1, 0⟩),
    fov := fun _ => false, explored := fun _ => false,
    rooms := [], entities := [playerC1],
    upStairs := stairsUp, downStairs := stairsDown }

/-- The state after the player movement action one cell to the right. -/
def lvC1after : Level :=
  movement_action specFov id lvC1 100 ⟨1, 0⟩

/-- C1 counterexample: starting from a state satisfying the claimed occupancy
equivalence, the player movement action (which runs `Entity.move`) moves the
blocking player from `(0,0)` to `(1,0)` but writes nothing to the walkable
layer: afterwards `(0,0)` is carved floor with no blocking entity yet is still
non-walkable, and `(1,0)` holds a blocking entity yet is still walkable — both
directions of the claimed equivalence fail, and the old cell is not marked
walkable nor the new cell non-walkable. -/
theorem C1_counterexample :
    lvC1after.entities = [{ playerC1 with pos := ⟨1, 0⟩ }]
    ∧ lvC1after.transparent ⟨0, 0⟩ = true
    ∧ lvC1after.get_blocking_entity_at_location ⟨0, 0⟩ = none
    ∧ lvC1after.walkable ⟨0, 0⟩ = false
    ∧ lvC1after.get_blocking_entity_at_location ⟨1, 0⟩
        = some { playerC1 with pos := ⟨1, 0⟩ }
    ∧ lvC1after.walkable ⟨1, 0⟩ = true := by
  decide

/-- C1 as amended: `Entity.move` and the player movement action never write
the walkable layer — a moved blocking entity leaves its old cell non-walkable
and its new cell walkable, so the claimed equivalence is not preserved by
movement.  The equivalence is maintained only by `Entity.place`: placing a
blocking entity makes the target cell non-walkable, and re-placing an entity
that was blocking a cell marks that old cell walkable again. -/
theorem C1_movement_leaves_walkable_unchanged :
    (∀ (vis : VisFun) (atk : Entity → Entity) (lv : Level) (pid : Nat)
        (d p : Vector),
      (movement_action vis atk lv pid d).walkable p = lv.walkable p)
    ∧ (∀ (e : Entity) (d : Vector), e.move d = { e with pos := e.pos + d })
    ∧ (∀ (lv : Level) (e : Entity) (pos : Vector), e.blocks = true →
        (e.place lv pos).walkable pos = false)
    ∧ (∀ (lv : Level) (e old : Entity) (pos : Vector),
        lv.entities.find? (fun x => decide (x.eid = e.eid)) = some old →
        old.blocks = true → old.pos ≠ pos →
        (e.place lv pos).walkable old.pos = true) := by
  refine ⟨?_, fun e d => rfl, ?_, ?_⟩
  · intro vis atk lv pid d p
    unfold movement_action
    cases h : lv.entities.find? (fun e => decide (e.eid = pid)) with
    | none => rfl
    | some player =>
      simp only
      by_cases hw : lv.walkable (player.pos + d)
      · simp only [hw, if_true]
        cases hb : lv.get_blocking_entity_at_location (player.pos + d) with
        | some t => rfl
        | none => rfl
      · simp [hw]
  · intro lv e pos hb
    simp only [Entity.place, hb, if_true, Tilemap.set_same]
  · intro lv e old pos hfind hb hne
    simp only [Entity.place, Level.removeById, hfind, hb, if_true]
    by_cases he : e.blocks
    · simp only [he, if_true]
      rw [Tilemap.set_other _ _ _ _ hne, Tilemap.set_same]
    · simp [he, Tilemap.set_same]

/-- Witness for the amended C1 theorem at concrete inputs. -/
theorem C1_witness :
    (movement_action specFov id lvC1 100 ⟨1, 0⟩).walkable ⟨2, 0⟩
      = lvC1.walkable ⟨2, 0⟩
    ∧ playerC1.move ⟨1, 0⟩ = { playerC1 with pos := playerC1.pos + ⟨1, 0⟩ }
    ∧ (playerC1.place lvC1 ⟨2, 0⟩).walkable ⟨2, 0⟩ = false
    ∧ (playerC1.place lvC1 ⟨1, 0⟩).walkable ⟨0, 0⟩ = true :=
  ⟨C1_movement_leaves_walkable_unchanged.1 specFov id lvC1 100 ⟨1, 0⟩ ⟨2, 0⟩,
   C1_movement_leaves_walkable_unchanged.2.1 playerC1 ⟨1, 0⟩,
   C1_movement_leaves_walkable_unchanged.2.2.1 lvC1 playerC1 ⟨2, 0⟩ (by decide),
   C1_movement_leaves_walkable_unchanged.2.2.2 lvC1 playerC1 playerC1 ⟨1, 0⟩
     (by decide) (by decide) (by decide)⟩

/-! ## Claim C5: who updates the exploration memory -/

/-- A fully transparent, fully unexplored 5×5 level. -/
def lvC5 : Level :=
  { width := 5, height := 5,
    walkable := fun _ => true, transparent := fun _ => true,
    fov := fun _ => false, explored := fun _ => false,
    rooms := [], entities := [],
    upStairs := stairsUp, downStairs := stairsDown }

/-- The level after a visibility computation from `(2,2)` with radius 2. -/
def lvC5after : Level :=
  lvC5.compute_fov specFov ⟨2, 2⟩ 2 true

/-- C5 counterexample: immediately after `compute_fov`, the observer cell
`(2,2)` is visible in the fov layer but its `explored` flag is still false —
the visibility computation does not update the exploration memory. -/
theorem C5_counterexample :
    lvC5after.fov ⟨2, 2⟩ = true ∧ lvC5after.explored ⟨2, 2⟩ = false := by
  decide

/-- C5 as amended: `Level.compute_fov` rewrites only the `fov` layer and
leaves `explored` (and every other layer) unchanged, whatever the visibility
algorithm; the exploration memory is updated by the rendering step instead —
after `render_all` with `fov_recompute` set, every in-bounds cell whose fov is
true has `explored` true. -/
theorem C5_explored_updated_by_render :
    (∀ (vis : VisFun) (lv : Level) (pos : Vector) (radius : Nat)
        (lw : Bool),
      (lv.compute_fov vis pos radius lw).explored = lv.explored
      ∧ (lv.compute_fov vis pos radius lw).walkable = lv.walkable
      ∧ (lv.compute_fov vis pos radius lw).transparent = lv.transparent)
    ∧ (∀ (lv : Level) (p : Vector), lv.inBounds p = true → lv.fov p = true →
        (render_all lv true).explored p = true) := by
  refine ⟨fun vis lv pos radius lw => ⟨rfl, rfl, rfl⟩, ?_⟩
  intro lv p hin hfov
  simp [render_all, hin, hfov]

/-- Witness for the amended C5 theorem at concrete inputs. -/
theorem C5_witness :
    (lvC5.compute_fov specFov ⟨2, 2⟩ 2 true).explored = lvC5.explored
    ∧ (render_all lvC5after true).explored ⟨2, 2⟩ = true :=
  ⟨(C5_explored_updated_by_render.1 specFov lvC5 ⟨2, 2⟩ 2 true).1,
   C5_explored_updated_by_render.2 lvC5after ⟨2, 2⟩ (by decide) (by decide)⟩

/-! ## Claim C3: accepted rooms are pairwise non-intersecting -/

theorem Room.intersect_true_iff (a b : Room) :
    a.intersect b = true ↔
      a.x1 ≤ b.x2 ∧ b.x1 ≤ a.x2 ∧ a.y1 ≤ b.y2 ∧ b.y1 ≤ a.y2 := by
  simp [Room.intersect, ge_iff_le, and_assoc]

theorem Room.intersect_false_symm {a b : Room} (h : a.intersect b = false) :
    b.intersect a = false := by
  rw [Bool.eq_false_iff] at h ⊢
  intro hb
  have hb2 := (Room.intersect_true_iff b a).mp hb
  exact h ((Room.intersect_true_iff a b).mpr ⟨hb2.2.1, hb2.1, hb2.2.2.2, hb2.2.2.1⟩)

theorem Level.removeById_rooms (lv : Level) (i : Nat) :
    (lv.removeById i).rooms = lv.rooms := by
  unfold Level.removeById
  cases lv.entities.find? (fun x => decide (x.eid = i)) <;> rfl

theorem Entity.place_rooms (e : Entity) (lv : Level) (pos : Vector) :
    (e.place lv pos).rooms = lv.rooms := by
  simp [Entity.place, Level.removeById_rooms]

/-- How one room-loop iteration changes the accepted list: either the
candidate was rejected and the list is unchanged, or the candidate intersected
no accepted room and was appended. -/
theorem genStep_rooms (p : GenParams) (lv : Level) (rng : Rng) :
    (genStep p (lv, rng)).1.rooms = lv.rooms
    ∨ ((genStep p (lv, rng)).1.rooms = lv.rooms ++ [(genCandidate p rng).1]
       ∧ lv.rooms.any (fun room => (genCandidate p rng).1.intersect room) = false) := by
  rcases h : genCandidate p rng with ⟨c, r2⟩
  simp only [genStep, h]
  by_cases hint : lv.rooms.any (fun room => c.intersect room)
  · left; simp [hint]
  · right
    refine ⟨?_, by simpa using hint⟩
    simp only [Bool.not_eq_true] at hint
    simp only [hint, if_false, Bool.false_eq_true]
    by_cases hemp : (lv.init_room c).rooms.isEmpty
    · simp only [hemp, if_true]
      simp [Entity.place_rooms, Level.init_room]
    · simp only [hemp, if_false]
      by_cases hcoin : randint 0 1 (r2.stream r2.k) = 1 <;>
        simp [hcoin, Level.init_room, Level.create_h_tunnel, Level.create_v_tunnel,
          Rng.next]

theorem genStep_pairwise (p : GenParams) (lv : Level) (rng : Rng)
    (h : lv.rooms.Pairwise (fun a b => a.intersect b = false)) :
    (genStep p (lv, rng)).1.rooms.Pairwise (fun a b => a.intersect b = false) := by
  rcases genStep_rooms p lv rng with heq | ⟨heq, hany⟩
  · rw [heq]; exact h
  · rw [heq, List.pairwise_append]
    refine ⟨h, List.pairwise_singleton _ _, ?_⟩
    intro a ha b hb
    rw [List.mem_singleton] at hb
    subst hb
    have := (List.any_eq_false).mp hany a ha
    exact Room.intersect_false_symm (by simpa using this)

theorem genLoop_pairwise (p : GenParams) (n : Nat) (s : Level × Rng)
    (h : s.1.rooms.Pairwise (fun a b => a.intersect b = false)) :
    (genLoop p n s).1.rooms.Pairwise (fun a b => a.intersect b = false) := by
  induction n generalizing s with
  | zero => exact h
  | succ k ih =>
    have : genLoop p (k + 1) s = genLoop p k (genStep p s) := rfl
    rw [this]
    exact ih (genStep p s) (genStep_pairwise p s.1 s.2 h)

/-- The accepted-rooms list of a completed `Level.generate` run (`[]` when the
run did not return). -/
def generatedRooms (o : Option (Level × Rng)) : List Room :=
  match o with
  | none => []
  | some s => s.1.rooms

/-- Partial correctness: `place_entity_randomly` can only return the level produced by placing the
entity at the drawn position; in particular the rooms list is untouched, the
chosen position was drawn by `randint` over the room's interior ranges, and,
when `allow_overlap` is false, no entity of the pre-call list sits at the
chosen position. -/
theorem place_entity_randomly_some :
    ∀ (fuel : Nat) (lv : Level) (e : Entity) (room : Room) (ao : Bool)
      (rng : Rng) (lv2 : Level) (pos : Vector) (rng2 : Rng),
      lv.place_entity_randomly e room ao rng fuel = some (lv2, pos, rng2) →
      lv2 = e.place lv pos
      ∧ (ao = false →
          ∀ ent ∈ lv.entities, ent.pos ≠ pos)
      ∧ ∃ rx ry : Nat,
          pos = ⟨randint (room.x1 + 1) (room.x2 - 1) rx,
                 randint (room.y1 + 1) (room.y2 - 1) ry⟩ := by
  intro fuel
  induction fuel with
  | zero => intro lv e room ao rng lv2 pos rng2 h; exact absurd h (by simp [Level.place_entity_randomly])
  | succ k ih =>
    intro lv e room ao rng lv2 pos rng2 h
    rw [Level.place_entity_randomly] at h
    by_cases hc : (!ao && lv.entities.any
        (fun ent => decide (ent.pos = (⟨randint (room.x1 + 1) (room.x2 - 1) (rng.stream rng.k),
          randint (room.y1 + 1) (room.y2 - 1) (rng.stream (rng.k + 1))⟩ : Vector)))) = true
    · simp only [Rng.next] at h
      rw [if_pos hc] at h
      exact ih lv e room ao _ lv2 pos rng2 h
    · simp only [Rng.next] at h
      rw [if_neg hc] at h
      have hinj := Option.some.inj h
      rw [Prod.mk.injEq, Prod.mk.injEq] at hinj
      obtain ⟨h1, h2, h3⟩ := hinj
      refine ⟨by rw [← h1, h2], ?_, ⟨rng.stream rng.k, rng.stream (rng.k + 1), h2.symm⟩⟩
      intro hao ent hent hpos
      subst hao
      simp only [Bool.not_false, Bool.true_and] at hc
      rw [Bool.not_eq_true, List.any_eq_false] at hc
      exact hc ent hent (by simp only [decide_eq_true_eq]; rw [h2]; exact hpos)

/-- The rooms list of a completed `generate` run is the room loop's list (the
down-stairs placement never touches it), or the run did not return. -/
theorem generate_rooms (p : GenParams) (rng : Rng) (fuel : Nat) :
    generatedRooms (Level.generate p rng fuel) = []
    ∨ generatedRooms (Level.generate p rng fuel)
        = (genLoop p p.room_max_count (initLevel p, rng)).1.rooms := by
  unfold Level.generate
  simp only [Rng.next]
  rcases hg : (genLoop p p.room_max_count (initLevel p, rng)).1.rooms.get?
      (((genLoop p p.room_max_count (initLevel p, rng)).2.stream
          (genLoop p p.room_max_count (initLevel p, rng)).2.k) %
        (genLoop p p.room_max_count (initLevel p, rng)).1.rooms.length)
    with _ | room
  · left; simp [hg, generatedRooms]
  · dsimp only
    rcases hp : (genLoop p p.room_max_count (initLevel p, rng)).1.place_entity_randomly
        (genLoop p p.room_max_count (initLevel p, rng)).1.downStairs room false
        ⟨(genLoop p p.room_max_count (initLevel p, rng)).2.stream,
          (genLoop p p.room_max_count (initLevel p, rng)).2.k + 1⟩ fuel
      with _ | ⟨lv3, pos3, rng3⟩
    · left; simp [hp, generatedRooms]
    · right
      obtain ⟨h1, _, _⟩ := place_entity_randomly_some fuel _ _ _ _ _ _ _ _ hp
      simp only [hp, generatedRooms]
      rw [h1, Entity.place_rooms]

/-- C3: at every point during generation (after any number `n` of room-loop
iterations) and after a completed `generate` run, the accepted-rooms list is
pairwise non-intersecting under the closed-interval test; and a candidate that
intersects any previously accepted room (including one merely touching an
edge, as the witness instantiates) leaves the level unchanged, only the random
stream having advanced past the candidate's four draws — it is discarded
without retry. -/
theorem C3_rooms_pairwise_disjoint :
    (∀ (p : GenParams) (n : Nat) (rng : Rng),
      ((genLoop p n (initLevel p, rng)).1.rooms).Pairwise
        (fun a b => a.intersect b = false))
    ∧ (∀ (p : GenParams) (rng : Rng) (fuel : Nat),
      (generatedRooms (Level.generate p rng fuel)).Pairwise
        (fun a b => a.intersect b = false))
    ∧ (∀ (p : GenParams) (rng : Rng) (lv : Level),
      lv.rooms.any (fun room => (genCandidate p rng).1.intersect room) = true →
      genStep p (lv, rng) = (lv, (genCandidate p rng).2)) := by
  have hmain : ∀ (p : GenParams) (n : Nat) (rng : Rng),
      ((genLoop p n (initLevel p, rng)).1.rooms).Pairwise
        (fun a b => a.intersect b = false) := by
    intro p n rng
    exact genLoop_pairwise p n (initLevel p, rng) (by simp [initLevel])
  refine ⟨hmain, ?_, ?_⟩
  · intro p rng fuel
    rcases generate_rooms p rng fuel with h | h
    · rw [h]; exact List.Pairwise.nil
    · rw [h]; exact hmain p p.room_max_count rng
  · intro p rng lv hint
    rcases h : genCandidate p rng with ⟨c, r2⟩
    rw [h] at hint
    simp only [genStep, h]
    rw [if_pos hint]

/-- Generation parameters used by the concrete witnesses: a 10×10 level, one
room slot, rooms of side 3. -/
def genP0 : GenParams :=
  { width := 10, height := 10, room_max_count := 1,
    room_min_size := 3, room_max_size := 3 }

/-- The identity raw-draw stream. -/
def rngId : Rng := ⟨fun k => k, 0⟩

/-- A level whose accepted list already holds the room `(0,0)–(3,3)`. -/
def lvC3 : Level :=
  { width := 10, height := 10,
    walkable := fun _ => false, transparent := fun _ => false,
    fov := fun _ => false, explored := fun _ => false,
    rooms := [⟨0, 0, 3, 3⟩], entities := [],
    upStairs := stairsUp, downStairs := stairsDown }

/-- A draw stream whose candidate is the room `(3,1)–(6,4)`, which merely
touches the edge `x = 3` of the accepted room of `lvC3`. -/
def rngC3 : Rng :=
  ⟨fun k => if k = 2 then 3 else if k = 3 then 1 else 0, 0⟩

/-- Witness for C3 at concrete inputs. -/
theorem C3_witness :
    ((genLoop genP0 1 (initLevel genP0, rngId)).1.rooms).Pairwise
      (fun a b => a.intersect b = false)
    ∧ (generatedRooms (Level.generate genP0 rngId 3)).Pairwise
      (fun a b => a.intersect b = false)
    ∧ genStep genP0 (lvC3, rngC3) = (lvC3, (genCandidate genP0 rngC3).2) :=
  ⟨C3_rooms_pairwise_disjoint.1 genP0 1 rngId,
   C3_rooms_pairwise_disjoint.2.1 genP0 rngId 3,
   C3_rooms_pairwise_disjoint.2.2 genP0 rngC3 lvC3 (by decide)⟩

/-! ## Claim C4: the first candidate is accepted and carries the up-stairs -/

theorem Level.removeById_upStairs (lv : Level) (i : Nat) :
    (lv.removeById i).upStairs = lv.upStairs := by
  unfold Level.removeById
  cases lv.entities.find? (fun x => decide (x.eid = i)) <;> rfl

theorem Entity.place_upStairs (e : Entity) (lv : Level) (pos : Vector) :
    (e.place lv pos).upStairs = lv.upStairs := by
  simp [Entity.place, Level.removeById_upStairs]

/-- A room-loop iteration on a level with no accepted room yet always accepts
its candidate (the intersection scan over the empty list fails) and places the
up-stairs at the candidate's center. -/
theorem genStep_first (p : GenParams) (lv : Level) (rng : Rng)
    (h : lv.rooms = []) :
    ∃ r rest, (genStep p (lv, rng)).1.rooms = r :: rest
      ∧ (genStep p (lv, rng)).1.upStairs.pos = r.center := by
  rcases hc : genCandidate p rng with ⟨c, r2⟩
  refine ⟨c, [], ?_⟩
  simp only [genStep, hc, h, List.any_nil, Bool.false_eq_true, if_false]
  have hrooms : (lv.init_room c).rooms = [] := h
  simp [Level.init_room, hrooms, h, Entity.place_rooms]

/-- Once a first room is accepted, every later iteration keeps it at the head
of the list and leaves the up-stairs where it is. -/
theorem genStep_keeps_first (p : GenParams) (lv : Level) (rng : Rng)
    (r : Room) (rest : List Room) (h : lv.rooms = r :: rest)
    (hu : lv.upStairs.pos = r.center) :
    ∃ rest2, (genStep p (lv, rng)).1.rooms = r :: rest2
      ∧ (genStep p (lv, rng)).1.upStairs.pos = r.center := by
  rcases hc : genCandidate p rng with ⟨c, r2⟩
  simp only [genStep, hc]
  by_cases hint : lv.rooms.any (fun room => c.intersect room)
  · refine ⟨rest, ?_, ?_⟩ <;> rw [if_pos hint]
    · exact h
    · exact hu
  · have hrooms : (lv.init_room c).rooms = r :: rest := h
    have hemp : (lv.init_room c).rooms.isEmpty = false := by simp [hrooms]
    simp only [Bool.not_eq_true] at hint
    simp only [hint, Bool.false_eq_true, if_false, hemp]
    refine ⟨rest ++ [c], ?_, ?_⟩ <;>
      by_cases hcoin : randint 0 1 (r2.stream r2.k) = 1 <;>
        simp [hcoin, Level.init_room, Level.create_h_tunnel, Level.create_v_tunnel,
          Rng.next, h, hu]

theorem genLoop_keeps_first (p : GenParams) (n : Nat) (s : Level × Rng)
    (r : Room) (rest : List Room) (h : s.1.rooms = r :: rest)
    (hu : s.1.upStairs.pos = r.center) :
    ∃ rest2, (genLoop p n s).1.rooms = r :: rest2
      ∧ (genLoop p n s).1.upStairs.pos = r.center := by
  induction n generalizing s rest with
  | zero => exact ⟨rest, h, hu⟩
  | succ k ih =>
    obtain ⟨rest2, h2, hu2⟩ := genStep_keeps_first p s.1 s.2 r rest h hu
    exact ih (genStep p s) rest2 h2 hu2

/-- C4: for every generation run with `room_max_count ≥ 1` and room sizes that
fit the bounds, at least one room is accepted — the first candidate is tested
against the empty accepted list and never intersects — it stays the first
element of the room list, and the up-stairs sits at its center
`(int((x1+x2)/2), int((y1+y2)/2))`; this survives the whole `generate` run. -/
theorem C4_up_stairs_at_first_room_center (p : GenParams)
    (h1 : 1 ≤ p.room_max_count)
    (h2 : p.room_min_size ≤ p.room_max_size)
    (h3 : p.room_max_size ≤ min p.width p.height - 1) :
    (∀ rng : Rng, ∃ r rest,
      (genLoop p p.room_max_count (initLevel p, rng)).1.rooms = r :: rest
      ∧ (genLoop p p.room_max_count (initLevel p, rng)).1.upStairs.pos = r.center)
    ∧ (∀ (rng : Rng) (fuel : Nat),
      (Level.generate p rng fuel).elim True (fun s => ∃ r rest,
        s.1.rooms = r :: rest ∧ s.1.upStairs.pos = r.center)) := by
  have hmain : ∀ rng : Rng, ∃ r rest,
      (genLoop p p.room_max_count (initLevel p, rng)).1.rooms = r :: rest
      ∧ (genLoop p p.room_max_count (initLevel p, rng)).1.upStairs.pos = r.center := by
    intro rng
    obtain ⟨m, hm⟩ : ∃ m, p.room_max_count = m + 1 :=
      ⟨p.room_max_count - 1, by omega⟩
    rw [hm]
    have hstep : genLoop p (m + 1) (initLevel p, rng)
        = genLoop p m (genStep p (initLevel p, rng)) := rfl
    rw [hstep]
    obtain ⟨r, rest, hr, hu⟩ := genStep_first p (initLevel p) rng rfl
    obtain ⟨rest2, h2, hu2⟩ :=
      genLoop_keeps_first p m (genStep p (initLevel p, rng)) r rest hr hu
    exact ⟨r, rest2, h2, hu2⟩
  refine ⟨hmain, ?_⟩
  intro rng fuel
  unfold Level.generate
  simp only [Rng.next]
  rcases hg : (genLoop p p.room_max_count (initLevel p, rng)).1.rooms.get?
      (((genLoop p p.room_max_count (initLevel p, rng)).2.stream
          (genLoop p p.room_max_count (initLevel p, rng)).2.k) %
        (genLoop p p.room_max_count (initLevel p, rng)).1.rooms.length)
    with _ | room
  · exact trivial
  · dsimp only
    rcases hp : (genLoop p p.room_max_count (initLevel p, rng)).1.place_entity_randomly
        (genLoop p p.room_max_count (initLevel p, rng)).1.downStairs room false
        ⟨(genLoop p p.room_max_count (initLevel p, rng)).2.stream,
          (genLoop p p.room_max_count (initLevel p, rng)).2.k + 1⟩ fuel
      with _ | ⟨lv3, pos3, rng3⟩
    · exact trivial
    · obtain ⟨h1', _, _⟩ := place_entity_randomly_some fuel _ _ _ _ _ _ _ _ hp
      obtain ⟨r, rest, hr, hu⟩ := hmain rng
      simp only [Option.elim]
      refine ⟨r, rest, ?_, ?_⟩
      · show lv3.rooms = r :: rest
        rw [h1', Entity.place_rooms]; exact hr
      · show lv3.upStairs.pos = r.center
        rw [h1', Entity.place_upStairs]; exact hu

/-- Witness for C4 at concrete inputs (the witnessed `generate` run returns,
so the second conjunct is not vacuous there). -/
theorem C4_witness :
    ((∃ r rest,
      (genLoop genP0 genP0.room_max_count (initLevel genP0, rngId)).1.rooms = r :: rest
      ∧ (genLoop genP0 genP0.room_max_count (initLevel genP0, rngId)).1.upStairs.pos
          = r.center)
    ∧ (Level.generate genP0 rngId 3).elim True (fun s => ∃ r rest,
        s.1.rooms = r :: rest ∧ s.1.upStairs.pos = r.center))
    ∧ (Level.generate genP0 rngId 3).isSome = true :=
  ⟨⟨(C4_up_stairs_at_first_room_center genP0 (by decide) (by decide) (by decide)).1 rngId,
    (C4_up_stairs_at_first_room_center genP0 (by decide) (by decide) (by decide)).2 rngId 3⟩,
   by decide⟩

/-! ## Claim C8: the down-stairs placement -/

/-- Placing a non-blocking entity never turns a walkable cell non-walkable
(removal can only free cells, and no cell is blocked afterwards). -/
theorem Entity.place_walkable_mono (e : Entity) (lv : Level) (pos q : Vector)
    (hb : e.blocks = false) (h : lv.walkable q = true) :
    (e.place lv pos).walkable q = true := by
  unfold Entity.place Level.removeById
  cases hf : lv.entities.find? (fun x => decide (x.eid = e.eid)) with
  | none => simp [hb, h]
  | some old =>
    by_cases ho : old.blocks
    · simp only [hb, ho, if_true, Bool.false_eq_true, if_false]
      by_cases hq : q = old.pos
      · subst hq; simp [Tilemap.set_same]
      · rw [Tilemap.set_other _ _ _ _ hq]; exact h
    · simp [hb, ho, h]

theorem Level.init_room_walkable_mono (lv : Level) (r : Room) (q : Vector)
    (h : lv.walkable q = true) : (lv.init_room r).walkable q = true := by
  simp only [Level.init_room]
  by_cases hi : r.interior q <;> simp [hi, h]

theorem Level.init_room_walkable_interior (lv : Level) (r : Room) (q : Vector)
    (h : r.interior q = true) : (lv.init_room r).walkable q = true := by
  simp [Level.init_room, h]

theorem Level.create_h_tunnel_walkable_mono (lv : Level) (x1 x2 y : Int)
    (q : Vector) (h : lv.walkable q = true) :
    (lv.create_h_tunnel x1 x2 y).walkable q = true := by
  simp only [Level.create_h_tunnel]
  split <;> simp [h]

theorem Level.create_v_tunnel_walkable_mono (lv : Level) (y1 y2 x : Int)
    (q : Vector) (h : lv.walkable q = true) :
    (lv.create_v_tunnel y1 y2 x).walkable q = true := by
  simp only [Level.create_v_tunnel]
  split <;> simp [h]

/-- The generator invariant behind C8: the stairs stay non-blocking, every
accepted room is at least 2 tiles wide and tall (so its interior sampling
range is nonempty), and every interior cell of an accepted room is
walkable. -/
def GenInv (lv : Level) : Prop :=
  lv.upStairs.blocks = false
  ∧ lv.downStairs.blocks = false
  ∧ (∀ r ∈ lv.rooms, r.x1 + 2 ≤ r.x2 ∧ r.y1 + 2 ≤ r.y2)
  ∧ (∀ r ∈ lv.rooms, ∀ q : Vector, r.interior q = true → lv.walkable q = true)

theorem genStep_inv (p : GenParams) (s : Level × Rng)
    (hsize : 2 ≤ p.room_min_size) (hmm : p.room_min_size ≤ p.room_max_size)
    (h : GenInv s.1) : GenInv (genStep p s).1 := by
  obtain ⟨hup, hdown, hsz, hwalk⟩ := h
  rcases s with ⟨lv, rng⟩
  rcases hc : genCandidate p rng with ⟨c, r2⟩
  have hcsize : c.x1 + 2 ≤ c.x2 ∧ c.y1 + 2 ≤ c.y2 := by
    have hw := randint_mem (p.room_min_size : Int) (p.room_max_size : Int)
      (rng.stream rng.k) (by exact_mod_cast hmm)
    have hh := randint_mem (p.room_min_size : Int) (p.room_max_size : Int)
      (rng.stream (rng.k + 1)) (by exact_mod_cast hmm)
    have hsz2 : (2 : Int) ≤ (p.room_min_size : Int) := by exact_mod_cast hsize
    have hc2 := hc
    simp only [genCandidate, Rng.next, Prod.mk.injEq] at hc2
    obtain ⟨hc1, _⟩ := hc2
    rw [← hc1]
    simp only [Room.make]
    constructor <;> omega
  simp only [genStep, hc]
  by_cases hint : lv.rooms.any (fun room => c.intersect room)
  · rw [if_pos hint]
    exact ⟨hup, hdown, hsz, hwalk⟩
  · simp only [Bool.not_eq_true] at hint
    simp only [hint, Bool.false_eq_true, if_false]
    by_cases hemp : (lv.init_room c).rooms.isEmpty
    · simp only [hemp, if_true]
      have hroomsnil : lv.rooms = [] := by
        have : (lv.init_room c).rooms = lv.rooms := rfl
        rw [this] at hemp
        exact List.isEmpty_iff.mp hemp
      refine ⟨?_, ?_, ?_, ?_⟩
      · show ((lv.init_room c).upStairs).blocks = false
        exact hup
      · show (((lv.init_room c).upStairs.place (lv.init_room c) c.center).downStairs).blocks = false
        have : ∀ e lv2 pos, (Entity.place e lv2 pos).downStairs = lv2.downStairs := by
          intro e lv2 pos
          unfold Entity.place Level.removeById
          cases lv2.entities.find? (fun x => decide (x.eid = e.eid)) <;> rfl
        rw [this]
        exact hdown
      · intro r hr
        rw [Entity.place_rooms] at hr
        have : (lv.init_room c).rooms = lv.rooms := rfl
        rw [this, hroomsnil] at hr
        simp at hr
        subst hr
        exact hcsize
      · intro r hr q hq
        rw [Entity.place_rooms] at hr
        have hrooms : (lv.init_room c).rooms = lv.rooms := rfl
        rw [hrooms, hroomsnil] at hr
        simp at hr
        subst hr
        exact Entity.place_walkable_mono _ _ _ _ hup
          (Level.init_room_walkable_interior lv _ q hq)
    · simp only [hemp, if_false]
      by_cases hcoin : randint 0 1 (r2.stream r2.k) = 1
      · simp only [Rng.next, hcoin, if_true]
        refine ⟨hup, hdown, ?_, ?_⟩
        · intro r hr
          have hr2 : r ∈ lv.rooms ++ [c] := hr
          rw [List.mem_append, List.mem_singleton] at hr2
          rcases hr2 with hr2 | hr2
          · exact hsz r hr2
          · subst hr2; exact hcsize
        · intro r hr q hq
          have hr2 : r ∈ lv.rooms ++ [c] := hr
          rw [List.mem_append, List.mem_singleton] at hr2
          rcases hr2 with hr2 | hr2
          · exact Level.create_v_tunnel_walkable_mono _ _ _ _ _
              (Level.create_h_tunnel_walkable_mono _ _ _ _ _
                (Level.init_room_walkable_mono _ _ _ (hwalk r hr2 q hq)))
          · subst hr2
            exact Level.create_v_tunnel_walkable_mono _ _ _ _ _
              (Level.create_h_tunnel_walkable_mono _ _ _ _ _
                (Level.init_room_walkable_interior lv r q hq))
      · simp only [Rng.next, hcoin, if_false]
        refine ⟨hup, hdown, ?_, ?_⟩
        · intro r hr
          have hr2 : r ∈ lv.rooms ++ [c] := hr
          rw [List.mem_append, List.mem_singleton] at hr2
          rcases hr2 with hr2 | hr2
          · exact hsz r hr2
          · subst hr2; exact hcsize
        · intro r hr q hq
          have hr2 : r ∈ lv.rooms ++ [c] := hr
          rw [List.mem_append, List.mem_singleton] at hr2
          rcases hr2 with hr2 | hr2
          · exact Level.create_h_tunnel_walkable_mono _ _ _ _ _
              (Level.create_v_tunnel_walkable_mono _ _ _ _ _
                (Level.init_room_walkable_mono _ _ _ (hwalk r hr2 q hq)))
          · subst hr2
            exact Level.create_h_tunnel_walkable_mono _ _ _ _ _
              (Level.create_v_tunnel_walkable_mono _ _ _ _ _
                (Level.init_room_walkable_interior lv r q hq))

theorem genLoop_inv (p : GenParams) (n : Nat) (s : Level × Rng)
    (hsize : 2 ≤ p.room_min_size) (hmm : p.room_min_size ≤ p.room_max_size)
    (h : GenInv s.1) : GenInv (genLoop p n s).1 := by
  induction n generalizing s with
  | zero => exact h
  | succ k ih => exact ih (genStep p s) (genStep_inv p s hsize hmm h)

theorem initLevel_inv (p : GenParams) : GenInv (initLevel p) := by
  refine ⟨rfl, rfl, ?_, ?_⟩ <;> intro r hr <;> simp [initLevel] at hr

theorem Level.removeById_entities_subset (lv : Level) (i : Nat) (ent : Entity)
    (h : ent ∈ (lv.removeById i).entities) : ent ∈ lv.entities := by
  unfold Level.removeById at h
  cases hf : lv.entities.find? (fun x => decide (x.eid = i)) with
  | none => rw [hf] at h; exact h
  | some old =>
    rw [hf] at h
    exact List.mem_of_mem_filter h

/-- C8 as amended: whenever `generate` returns, the down-stairs sits at a cell
strictly inside one of the accepted rooms, that cell is walkable, and — because
`place_entity_randomly` is called with its default `allow_overlap=False` — no
other entity of the level occupies that cell.  (Room sides of at least 2 make
the interior sampling range nonempty, mirroring the `randint` domain.) -/
theorem C8_down_stairs_placement (p : GenParams) (rng : Rng) (fuel : Nat)
    (hsize : 2 ≤ p.room_min_size) (hmm : p.room_min_size ≤ p.room_max_size) :
    (Level.generate p rng fuel).elim True (fun s =>
      ∃ room ∈ s.1.rooms,
        room.interior s.1.downStairs.pos = true
        ∧ s.1.walkable s.1.downStairs.pos = true
        ∧ ∀ ent ∈ s.1.entities, ent.eid ≠ s.1.downStairs.eid →
            ent.pos ≠ s.1.downStairs.pos) := by
  have hinv : GenInv (genLoop p p.room_max_count (initLevel p, rng)).1 :=
    genLoop_inv p p.room_max_count (initLevel p, rng) hsize hmm (initLevel_inv p)
  unfold Level.generate
  simp only [Rng.next]
  rcases hg : (genLoop p p.room_max_count (initLevel p, rng)).1.rooms.get?
      (((genLoop p p.room_max_count (initLevel p, rng)).2.stream
          (genLoop p p.room_max_count (initLevel p, rng)).2.k) %
        (genLoop p p.room_max_count (initLevel p, rng)).1.rooms.length)
    with _ | room
  · exact trivial
  · dsimp only
    rcases hp : (genLoop p p.room_max_count (initLevel p, rng)).1.place_entity_randomly
        (genLoop p p.room_max_count (initLevel p, rng)).1.downStairs room false
        ⟨(genLoop p p.room_max_count (initLevel p, rng)).2.stream,
          (genLoop p p.room_max_count (initLevel p, rng)).2.k + 1⟩ fuel
      with _ | ⟨lv3, pos3, rng3⟩
    · exact trivial
    · obtain ⟨h1, h2, rx, ry, h3⟩ := place_entity_randomly_some fuel _ _ _ _ _ _ _ _ hp
      obtain ⟨hup, hdown, hsz, hwalk⟩ := hinv
      have hroommem : room ∈ (genLoop p p.room_max_count (initLevel p, rng)).1.rooms :=
        List.get?_mem hg
      have hrsz := hsz room hroommem
      have hxb := randint_mem (room.x1 + 1) (room.x2 - 1) rx (by omega)
      have hyb := randint_mem (room.y1 + 1) (room.y2 - 1) ry (by omega)
      have hint : room.interior pos3 = true := by
        rw [h3]
        simp only [Room.interior, Bool.and_eq_true, decide_eq_true_eq]
        refine ⟨⟨⟨?_, ?_⟩, ?_⟩, ?_⟩ <;> omega
      have hwalk3 : (genLoop p p.room_max_count (initLevel p, rng)).1.walkable pos3 = true :=
        hwalk room hroommem pos3 hint
      simp only [Option.elim]
      refine ⟨room, ?_, ?_, ?_, ?_⟩
      · show room ∈ lv3.rooms
        rw [h1, Entity.place_rooms]
        exact hroommem
      · show room.interior pos3 = true
        exact hint
      · show lv3.walkable pos3 = true
        rw [h1]
        exact Entity.place_walkable_mono _ _ _ _ hdown hwalk3
      · show ∀ ent ∈ lv3.entities,
          ent.eid ≠ (genLoop p p.room_max_count (initLevel p, rng)).1.downStairs.eid →
          ent.pos ≠ pos3
        intro ent hent hne
        rw [h1] at hent
        simp only [Entity.place, List.mem_append, List.mem_singleton] at hent
        rcases hent with hent | hent
        · exact h2 rfl ent (Level.removeById_entities_subset _ _ _ hent)
        · exfalso
          apply hne
          rw [hent]

/-- A room whose interior is the two cells `(1,1)` and `(2,1)`. -/
def roomC8 : Room := ⟨0, 0, 3, 2⟩

/-- An entity already occupying the interior cell `(1,1)`. -/
def orcC8 : Entity :=
  { eid := 7, name := "Orc", etype := "actor", blocks := true, pos := ⟨1, 1⟩ }

/-- A level with `roomC8` accepted and `orcC8` inside it. -/
def lvC8 : Level :=
  { width := 10, height := 10,
    walkable := fun p => roomC8.interior p && !decide (p = (⟨1, 1⟩ : Vector)),
    transparent := fun p => roomC8.interior p,
    fov := fun _ => false, explored := fun _ => false,
    rooms := [roomC8], entities := [orcC8],
    upStairs := stairsUp, downStairs := stairsDown }

/-- A draw stream whose first interior draw is the occupied cell `(1,1)` and
whose second is the free cell `(2,1)`. -/
def rngC8 : Rng := ⟨fun k => if k < 2 then 0 else 1, 0⟩

/-- C8 counterexample: the down-stairs placement runs `place_entity_randomly`
with its default `allow_overlap=False`, so a draw that lands on an occupied
cell is rejected and redrawn — it can never end on a cell already occupied by
another entity.  Concretely: the first draw of this run is exactly the
occupied cell `(1,1)`, yet the call returns only after drawing the free cell
`(2,1)`, and the returned position holds no pre-existing entity. -/
theorem C8_counterexample :
    randint (roomC8.x1 + 1) (roomC8.x2 - 1) (rngC8.stream rngC8.k) = 1
    ∧ randint (roomC8.y1 + 1) (roomC8.y2 - 1) (rngC8.stream (rngC8.k + 1)) = 1
    ∧ lvC8.entities.any (fun e => decide (e.pos = (⟨1, 1⟩ : Vector))) = true
    ∧ ((lvC8.place_entity_randomly lvC8.downStairs roomC8 false rngC8 5).map
        (fun out => out.2.1)) = some ⟨2, 1⟩
    ∧ lvC8.entities.all (fun e => !decide (e.pos = (⟨2, 1⟩ : Vector))) = true := by
  decide

/-- Witness for the amended C8 theorem at concrete inputs (the witnessed run
returns, so the conclusion is not vacuous there). -/
theorem C8_witness :
    ((Level.generate genP0 rngId 3).elim True (fun s =>
      ∃ room ∈ s.1.rooms,
        room.interior s.1.downStairs.pos = true
        ∧ s.1.walkable s.1.downStairs.pos = true
        ∧ ∀ ent ∈ s.1.entities, ent.eid ≠ s.1.downStairs.eid →
            ent.pos ≠ s.1.downStairs.pos))
    ∧ (Level.generate genP0 rngId 3).isSome = true :=
  ⟨C8_down_stairs_placement genP0 rngId 3 (by decide) (by decide), by decide⟩

/-! ## Claim C10: the `place_entity_randomly` retry loop -/

/-- C10: with `allow_overlap` false, `place_entity_randomly` can only return
after placing the entity at a cell strictly inside the room's interior
(`x ∈ [x1+1, x2-1]`, `y ∈ [y1+1, y2-1]`) that no entity of the level occupies,
the result being exactly `entity.place` at that cell; and it is an unbounded
retry loop — for rooms whose interior sampling ranges are nonempty (the
`randint` precondition), when every interior cell is occupied it returns
within no budget at all, for any draw stream, so it terminates only when an
unoccupied interior cell exists (and only for streams that eventually draw
one). -/
theorem C10_place_entity_randomly_contract :
    (∀ (fuel : Nat) (lv : Level) (e : Entity) (room : Room) (rng : Rng),
      room.x1 + 1 ≤ room.x2 - 1 → room.y1 + 1 ≤ room.y2 - 1 →
      (lv.place_entity_randomly e room false rng fuel).elim True (fun out =>
        room.interior out.2.1 = true
        ∧ (∀ ent ∈ lv.entities, ent.pos ≠ out.2.1)
        ∧ out.1 = e.place lv out.2.1))
    ∧ (∀ (lv : Level) (e : Entity) (room : Room),
      room.x1 + 1 ≤ room.x2 - 1 → room.y1 + 1 ≤ room.y2 - 1 →
      (∀ q : Vector, room.interior q = true → ∃ ent ∈ lv.entities, ent.pos = q) →
      ∀ (rng : Rng) (fuel : Nat),
        lv.place_entity_randomly e room false rng fuel = none) := by
  constructor
  · intro fuel lv e room rng hx hy
    rcases hp : lv.place_entity_randomly e room false rng fuel
      with _ | ⟨lv2, pos, rng2⟩
    · exact trivial
    · obtain ⟨h1, h2, rx, ry, h3⟩ :=
        place_entity_randomly_some fuel _ _ _ _ _ _ _ _ hp
      have hxb := randint_mem (room.x1 + 1) (room.x2 - 1) rx hx
      have hyb := randint_mem (room.y1 + 1) (room.y2 - 1) ry hy
      simp only [Option.elim]
      refine ⟨?_, h2 rfl, h1⟩
      rw [h3]
      simp only [Room.interior, Bool.and_eq_true, decide_eq_true_eq]
      refine ⟨⟨⟨?_, ?_⟩, ?_⟩, ?_⟩ <;> omega
  · intro lv e room hx hy hocc rng fuel
    induction fuel generalizing rng with
    | zero => rfl
    | succ k ih =>
      rw [Level.place_entity_randomly]
      simp only [Rng.next]
      have hxb := randint_mem (room.x1 + 1) (room.x2 - 1) (rng.stream rng.k) hx
      have hyb := randint_mem (room.y1 + 1) (room.y2 - 1) (rng.stream (rng.k + 1)) hy
      have hint : room.interior
          ⟨randint (room.x1 + 1) (room.x2 - 1) (rng.stream rng.k),
           randint (room.y1 + 1) (room.y2 - 1) (rng.stream (rng.k + 1))⟩ = true := by
        simp only [Room.interior, Bool.and_eq_true, decide_eq_true_eq]
        refine ⟨⟨⟨?_, ?_⟩, ?_⟩, ?_⟩ <;> omega
      obtain ⟨ent, hent, hpe⟩ := hocc _ hint
      have hany : lv.entities.any (fun x => decide (x.pos =
          (⟨randint (room.x1 + 1) (room.x2 - 1) (rng.stream rng.k),
            randint (room.y1 + 1) (room.y2 - 1) (rng.stream (rng.k + 1))⟩ : Vector))) = true :=
        List.any_eq_true.mpr ⟨ent, hent, by simp [hpe]⟩
      rw [if_pos (by simp [hany])]
      exact ih _

/-- A room with the single interior cell `(1,1)`. -/
def roomC10 : Room := ⟨0, 0, 2, 2⟩

/-- A level whose single entity `orcC8` occupies `(1,1)` — every interior cell
of `roomC10` is occupied, so the retry loop can never return. -/
def lvC10 : Level :=
  { width := 5, height := 5,
    walkable := fun _ => false, transparent := fun _ => false,
    fov := fun _ => false, explored := fun _ => false,
    rooms := [roomC10], entities := [orcC8],
    upStairs := stairsUp, downStairs := stairsDown }

/-- Witness for C10 at concrete inputs: a run that returns satisfies the
contract (and does return), and the fully occupied room yields `none`. -/
theorem C10_witness :
    ((lvC8.place_entity_randomly lvC8.downStairs roomC8 false rngC8 5).elim True
      (fun out =>
        roomC8.interior out.2.1 = true
        ∧ (∀ ent ∈ lvC8.entities, ent.pos ≠ out.2.1)
        ∧ out.1 = lvC8.downStairs.place lvC8 out.2.1))
    ∧ (lvC8.place_entity_randomly lvC8.downStairs roomC8 false rngC8 5).isSome = true
    ∧ lvC10.place_entity_randomly stairsDown roomC10 false rngId 7 = none := by
  refine ⟨C10_place_entity_randomly_contract.1 5 lvC8 lvC8.downStairs roomC8 rngC8
      (by decide) (by decide), by decide, ?_⟩
  apply C10_place_entity_randomly_contract.2 lvC10 stairsDown roomC10
    (by decide) (by decide) ?_ rngId 7
  intro q hq
  rcases q with ⟨qx, qy⟩
  simp only [Room.interior, roomC10, Bool.and_eq_true, decide_eq_true_eq] at hq
  obtain ⟨⟨⟨h1, h2⟩, h3⟩, h4⟩ := hq
  have hx : qx = 1 := by omega
  have hy : qy = 1 := by omega
  subst hx; subst hy
  exact ⟨orcC8, by simp [lvC10], by decide⟩

/-! ## Claim C9: `explored` is monotonic -/

theorem take_turn_explored (snap : Vector → Vector) (atk : Entity → Entity)
    (lv : Level) (c t : Entity) :
    (take_turn snap atk lv c t).explored = lv.explored := by
  unfold take_turn
  split
  · split
    · dsimp only
      split
      · rfl
      · split <;> rfl
    · split <;> rfl
  · rfl

theorem movement_action_explored (vis : VisFun) (atk : Entity → Entity)
    (lv : Level) (pid : Nat) (d : Vector) :
    (movement_action vis atk lv pid d).explored = lv.explored := by
  unfold movement_action
  split
  · rfl
  · dsimp only
    split
    · split <;> rfl
    · rfl

theorem Entity.place_explored (e : Entity) (lv : Level) (pos : Vector) :
    (e.place lv pos).explored = lv.explored := by
  unfold Entity.place Level.removeById
  cases lv.entities.find? (fun x => decide (x.eid = e.eid)) <;> rfl

/-- The operations a level undergoes after its construction: visibility
computations, renders, path computations, the player movement action, monster
turns, and entity placements (direct or randomized). -/
inductive LevelOp : Level → Level → Prop where
  | fovOp (lv : Level) (vis : VisFun) (pos : Vector) (radius : Nat) (lw : Bool) :
      LevelOp lv (lv.compute_fov vis pos radius lw)
  | renderOp (lv : Level) (fr : Bool) : LevelOp lv (render_all lv fr)
  | pathOp (lv : Level) (a b : Vector) : LevelOp lv (lv.compute_path a b).2
  | moveOp (lv : Level) (vis : VisFun) (atk : Entity → Entity) (pid : Nat)
      (d : Vector) : LevelOp lv (movement_action vis atk lv pid d)
  | turnOp (lv : Level) (snap : Vector → Vector) (atk : Entity → Entity)
      (c t : Entity) : LevelOp lv (take_turn snap atk lv c t)
  | placeOp (lv : Level) (e : Entity) (pos : Vector) : LevelOp lv (e.place lv pos)
  | placeRandomOp (lv : Level) (e : Entity) (room : Room) (ao : Bool) (rng : Rng)
      (fuel : Nat) (out : Level × Vector × Rng) :
      lv.place_entity_randomly e room ao rng fuel = some out → LevelOp lv out.1

theorem LevelOp.explored_mono {a b : Level} (h : LevelOp a b) (p : Vector)
    (hp : a.explored p = true) : b.explored p = true := by
  cases h with
  | fovOp vis pos radius lw => exact hp
  | renderOp fr =>
    unfold render_all
    by_cases hfr : fr
    · subst hfr
      simp only [if_true]
      by_cases hc : a.inBounds p && a.fov p <;> simp [hc, hp]
    · simp [hfr, hp]
  | pathOp x y => exact hp
  | moveOp vis atk pid d => rw [movement_action_explored]; exact hp
  | turnOp snap atk c t => rw [take_turn_explored]; exact hp
  | placeOp e pos => rw [Entity.place_explored]; exact hp
  | placeRandomOp e room ao rng fuel out hout =>
    obtain ⟨h1, _, _⟩ := place_entity_randomly_some fuel _ _ _ _ _ _ _ _
      (by rw [hout])
    rw [h1, Entity.place_explored]
    exact hp

/-- C9: across any sequence of post-construction operations (visibility
computations, renders, path computations, moves, monster turns, placements), a
cell whose `explored` flag is true stays true — no operation ever writes false
into the explored layer. -/
theorem C9_explored_monotonic (lv lv' : Level)
    (h : Relation.ReflTransGen LevelOp lv lv') (p : Vector)
    (hp : lv.explored p = true) : lv'.explored p = true := by
  induction h with
  | refl => exact hp
  | tail hstep hlast ih => exact hlast.explored_mono p ih

/-- A level with the cell `(0,0)` already explored. -/
def lvC9 : Level :=
  { width := 2, height := 2,
    walkable := fun _ => true, transparent := fun _ => true,
    fov := fun _ => false, explored := fun p => decide (p = ⟨0, 0⟩),
    rooms := [], entities := [],
    upStairs := stairsUp, downStairs := stairsDown }

/-- Witness for C9 at concrete inputs: one render step (with fov recompute and
the cell out of view) keeps `(0,0)` explored. -/
theorem C9_witness : (render_all lvC9 true).explored ⟨0, 0⟩ = true :=
  C9_explored_monotonic lvC9 (render_all lvC9 true)
    (Relation.ReflTransGen.single (LevelOp.renderOp lvC9 true)) ⟨0, 0⟩ (by decide)

/-! ## Claim C7: unreachable targets give an empty path and an idle turn -/

/-- The reversed path carried by a BFS queue entry: a walkable walk from `a`
to `c`, newest cell first, excluding `a`. -/
inductive PathTo (g : Tilemap) (a : Vector) : Vector → List Vector → Prop where
  | nil : PathTo g a a []
  | cons (c q : Vector) (path : List Vector) :
      PathTo g a c path → PathStep g c q → PathTo g a q (q :: path)

theorem PathTo.reachable {g : Tilemap} {a c : Vector} {path : List Vector}
    (h : PathTo g a c path) : Reachable g a c := by
  induction h with
  | nil => exact Relation.ReflTransGen.refl
  | cons c q path _ hstep ih => exact Relation.ReflTransGen.tail ih hstep

theorem Vector.add_sub_cancel_left (c d : Vector) : c + (d - c) = d := by
  rcases c with ⟨cx, cy⟩
  rcases d with ⟨dx, dy⟩
  simp only [Vector.add_def, Vector.sub_def, Vector.mk.injEq]
  constructor <;> omega

theorem Vector.add_sub_cancel_self (c d : Vector) : (c + d) - c = d := by
  rcases c with ⟨cx, cy⟩
  rcases d with ⟨dx, dy⟩
  simp only [Vector.add_def, Vector.sub_def, Vector.mk.injEq]
  constructor <;> omega

/-- Soundness of the queue invariant: if the search returns a nonempty path,
the target is reachable from the start. -/
theorem bfsAux_sound (g : Tilemap) (a b : Vector) :
    ∀ (fuel : Nat) (queue : List (Vector × List Vector)) (visited : List Vector),
      (∀ cp ∈ queue, PathTo g a cp.1 cp.2) →
      bfsAux g b fuel queue visited ≠ [] → Reachable g a b := by
  intro fuel
  induction fuel with
  | zero => intro queue visited _ hne; exact absurd rfl hne
  | succ k ih =>
    intro queue visited hq hne
    rcases queue with _ | ⟨⟨c, path⟩, rest⟩
    · exact absurd rfl hne
    · rw [bfsAux] at hne
      by_cases hcb : c = b
      · subst hcb
        exact (hq (c, path) (List.mem_cons_self _ _)).reachable
      · rw [if_neg hcb] at hne
        refine ih _ _ ?_ hne
        intro cp hcp
        rw [List.mem_append] at hcp
        rcases hcp with hcp | hcp
        · exact hq cp (List.mem_cons_of_mem _ hcp)
        · rw [List.mem_map] at hcp
          obtain ⟨q, hqmem, hcpq⟩ := hcp
          rw [List.mem_filter] at hqmem
          obtain ⟨hqmap, hqpred⟩ := hqmem
          rw [List.mem_map] at hqmap
          obtain ⟨d, hd, hqd⟩ := hqmap
          have hgq : g q = true := by
            have := hqpred
            simp only [Bool.and_eq_true] at this
            exact this.1
          have hstep : PathStep g c q := by
            refine ⟨?_, hgq⟩
            rw [← hqd, Vector.add_sub_cancel_self]
            exact hd
          have hpath : PathTo g a c path := hq (c, path) (List.mem_cons_self _ _)
          rw [← hcpq]
          exact PathTo.cons c q path hpath hstep

theorem findPath_sound (g : Tilemap) (a b : Vector)
    (hne : findPath g a b ≠ []) : Reachable g a b := by
  refine bfsAux_sound g a b bfsFuel [(a, [])] [a] ?_ hne
  intro cp hcp
  rw [List.mem_singleton] at hcp
  subst hcp
  exact PathTo.nil

/-- Invariant argument used to certify unreachability on concrete maps: a list
of cells that contains the start and is closed under walkable steps contains
everything reachable from the start. -/
theorem reachable_mem_closed (g : Tilemap) (L : List Vector) (a b : Vector)
    (ha : a ∈ L)
    (hcl : (L.all (fun p => dirs8.all
      (fun d => !(g (p + d)) || decide ((p + d) ∈ L)))) = true)
    (h : Reachable g a b) : b ∈ L := by
  induction h with
  | refl => exact ha
  | tail hab hstep ih =>
    rename_i c d
    obtain ⟨hdir, hgd⟩ := hstep
    have hc := (List.all_eq_true.mp hcl) c ih
    have hd := (List.all_eq_true.mp hc) (d - c) hdir
    rw [Vector.add_sub_cancel_left] at hd
    rw [hgd] at hd
    simp only [Bool.not_true, Bool.false_or, decide_eq_true_eq] at hd
    exact hd

/-- C7: when there is no connecting walkable route between the caller's and
the target's cells (on the grid with both endpoints temporarily forced
walkable, as `compute_path` computes it), `compute_path` returns an empty
sequence rather than raising, and `BasicMonster.take_turn` — in its chasing
branch, where it consults the path — responds to the empty path by doing
nothing: the entity list (hence the caller's position) is unchanged and the
walkable layer is pointwise unchanged. -/
theorem C7_unreachable_empty_path (lv : Level) (caller target : Entity)
    (snap : Vector → Vector) (atk : Entity → Entity)
    (hfov : lv.fov caller.pos = true)
    (hdist : 4 ≤ dist2 caller.pos target.pos)
    (hunreach : ¬ Reachable ((lv.walkable.set caller.pos true).set target.pos true)
        caller.pos target.pos) :
    (lv.compute_path caller.pos target.pos).1 = []
    ∧ (take_turn snap atk lv caller target).entities = lv.entities
    ∧ ∀ p, (take_turn snap atk lv caller target).walkable p = lv.walkable p := by
  have hempty : (lv.compute_path caller.pos target.pos).1 = [] := by
    by_contra hne
    exact hunreach (findPath_sound _ _ _ hne)
  refine ⟨hempty, ?_, ?_⟩
  · unfold take_turn
    rw [if_pos hfov, if_pos hdist]
    dsimp only
    rw [hempty]
    rfl
  · intro p
    unfold take_turn
    rw [if_pos hfov, if_pos hdist]
    dsimp only
    rw [hempty]
    exact compute_path_walkable_eq lv caller.pos target.pos p

/-- The chasing monster of the C7 scenario, at `(0,0)`. -/
def callerC7 : Entity :=
  { eid := 20, name := "Orc", etype := "actor", blocks := true, pos := ⟨0, 0⟩ }

/-- The walled-off target of the C7 scenario, at `(5,5)` — a fully enclosed
isolated cell (all its neighbours are non-walkable). -/
def targetC7 : Entity :=
  { eid := 21, name := "Player", etype := "actor", blocks := true, pos := ⟨5, 5⟩ }

/-- A level where only `(0,0)` and `(1,0)` are walkable; `(5,5)` is enclosed
by walls on all eight sides. -/
def lvC7 : Level :=
  { width := 8, height := 8,
    walkable := fun p => decide (p = ⟨0, 0⟩ ∨ p = ⟨1, 0⟩),
    transparent := fun _ => true,
    fov := fun _ => true, explored := fun _ => false,
    rooms := [], entities := [callerC7, targetC7],
    upStairs := stairsUp, downStairs := stairsDown }

/-- Witness for C7 at concrete inputs: the enclosed target yields an empty
path and an unchanged turn. -/
theorem C7_witness :
    (lvC7.compute_path callerC7.pos targetC7.pos).1 = []
    ∧ (take_turn (fun _ => ⟨1, 0⟩) id lvC7 callerC7 targetC7).entities = lvC7.entities
    ∧ (take_turn (fun _ => ⟨1, 0⟩) id lvC7 callerC7 targetC7).walkable ⟨1, 0⟩
        = lvC7.walkable ⟨1, 0⟩ := by
  have h := C7_unreachable_empty_path lvC7 callerC7 targetC7 (fun _ => ⟨1, 0⟩) id
    (by decide) (by decide)
    (by
      intro hr
      have hb := reachable_mem_closed
        ((lvC7.walkable.set callerC7.pos true).set targetC7.pos true)
        [⟨0, 0⟩, ⟨1, 0⟩] callerC7.pos targetC7.pos
        (by decide) (by decide) hr
      exact absurd hb (by decide))
  exact ⟨h.1, h.2.1, h.2.2 ⟨1, 0⟩⟩

/-! ## Claim C6: dungeon lifecycle depth arithmetic -/

/-- The Active(i) lifecycle state: the cursor points at depth `i`, a player is
registered, and depth `i` has been generated (levels are contiguous). -/
def DInv (d : Dungeon) (i : Nat) : Prop :=
  d.current = some i ∧ d.player.isSome = true ∧ i + 1 ≤ d.levels.length

theorem init_ok (gen : Nat → Level) (vis : VisFun) (player : Entity) :
    ∃ d0, Dungeon.clear.init gen vis player = .ok d0 ∧ DInv d0 0 := by
  refine ⟨_, rfl, rfl, rfl, ?_⟩
  exact Nat.le_refl 1

theorem next_ok (gen : Nat → Level) (vis : VisFun) (d : Dungeon) (i : Nat)
    (h : DInv d i) :
    ∃ d', d.go_to_next_level gen vis = .ok d' ∧ DInv d' (i + 1) := by
  obtain ⟨hcur, hpl, hlen⟩ := h
  rcases d with ⟨levels, cur, plr⟩
  rcases plr with _ | pl
  · exact absurd hpl (by simp)
  simp only at hcur hlen
  subst hcur
  unfold Dungeon.go_to_next_level
  dsimp only
  have hlt : i + 1 <
      (if levels.length ≤ i + 1 then levels ++ [gen (i + 1)] else levels).length := by
    by_cases hc : levels.length ≤ i + 1
    · rw [if_pos hc]
      simp only [List.length_append, List.length_singleton]
      omega
    · rw [if_neg hc]
      omega
  have hlt2 : i + 1 <
      ((if levels.length ≤ i + 1 then levels ++ [gen (i + 1)] else levels).map
        (fun l => l.removeById pl.eid)).length := by
    simpa using hlt
  obtain ⟨lv, hget⟩ :
      ∃ lv, ((if levels.length ≤ i + 1 then levels ++ [gen (i + 1)] else levels).map
        (fun l => l.removeById pl.eid)).get? (i + 1) = some lv :=
    ⟨_, List.get?_eq_get hlt2⟩
  rw [hget]
  refine ⟨_, rfl, rfl, rfl, ?_⟩
  simp only [List.length_set]
  omega

theorem prev_ok (vis : VisFun) (d : Dungeon) (i : Nat)
    (h : DInv d i) (hi : 1 ≤ i) :
    ∃ d', d.go_to_previous_level vis = .ok d' ∧ DInv d' (i - 1) := by
  obtain ⟨hcur, hpl, hlen⟩ := h
  rcases d with ⟨levels, cur, plr⟩
  rcases plr with _ | pl
  · exact absurd hpl (by simp)
  simp only at hcur hlen
  subst hcur
  unfold Dungeon.go_to_previous_level
  dsimp only
  rw [if_neg (by omega)]
  have hlt2 : i - 1 < (levels.map (fun l => l.removeById pl.eid)).length := by
    simp; omega
  obtain ⟨lv, hget⟩ :
      ∃ lv, (levels.map (fun l => l.removeById pl.eid)).get? (i - 1) = some lv :=
    ⟨_, List.get?_eq_get hlt2⟩
  rw [hget]
  refine ⟨_, rfl, rfl, rfl, ?_⟩
  simp only [List.length_set]
  simp at hlt2 ⊢
  omega

theorem iterateNext_ok (gen : Nat → Level) (vis : VisFun) (d : Dungeon)
    (i : Nat) (h : DInv d i) (n : Nat) :
    ∃ d', iterateNext gen vis d n = .ok d' ∧ DInv d' (i + n) := by
  induction n with
  | zero => exact ⟨d, rfl, h⟩
  | succ k ih =>
    obtain ⟨d1, hd1, hinv1⟩ := ih
    obtain ⟨d2, hd2, hinv2⟩ := next_ok gen vis d1 (i + k) hinv1
    refine ⟨d2, ?_, by rw [show i + (k + 1) = i + k + 1 by omega]; exact hinv2⟩
    rw [iterateNext, hd1]
    exact hd2

theorem iteratePrev_ok (vis : VisFun) (d : Dungeon) (i : Nat)
    (h : DInv d i) (m : Nat) (hm : m ≤ i) :
    ∃ d', iteratePrev vis d m = .ok d' ∧ DInv d' (i - m) := by
  induction m with
  | zero => exact ⟨d, rfl, h⟩
  | succ k ih =>
    obtain ⟨d1, hd1, hinv1⟩ := ih (by omega)
    obtain ⟨d2, hd2, hinv2⟩ := prev_ok vis d1 (i - k) hinv1 (by omega)
    refine ⟨d2, ?_, by rw [show i - (k + 1) = i - k - 1 by omega]; exact hinv2⟩
    rw [iteratePrev, hd1]
    exact hd2

/-- C6: from an uninitialized dungeon, `initialize` followed by `n`
`go_to_next_level` calls and then `m ≤ n` `go_to_previous_level` calls
succeeds and yields `current_level_number == n - m + 1` (all spec-modelled:
the lifecycle module is absent from src/). -/
theorem C6_lifecycle_depth (gen : Nat → Level) (vis : VisFun) (player : Entity)
    (n m : Nat) (h : m ≤ n) :
    lifecycleRun gen vis player n m = .ok (n - m + 1) := by
  unfold lifecycleRun
  obtain ⟨d0, hd0, hinv0⟩ := init_ok gen vis player
  rw [hd0]
  obtain ⟨d1, hd1, hinv1⟩ := iterateNext_ok gen vis d0 0 hinv0 n
  obtain ⟨d2, hd2, hinv2⟩ := iteratePrev_ok vis d1 (0 + n) hinv1 m (by omega)
  show (((Except.ok d0).bind fun d =>
      (iterateNext gen vis d n).bind fun d2 => iteratePrev vis d2 m).bind
      Dungeon.current_level_number) = _
  rw [Except.bind, hd1, Except.bind, hd2]
  obtain ⟨hcur2, _, _⟩ := hinv2
  show (Except.ok d2).bind Dungeon.current_level_number = _
  rw [Except.bind]
  unfold Dungeon.current_level_number
  rw [hcur2]
  have harith : 0 + n - m = n - m := by omega
  rw [harith]

/-- The level generator used by the C6 witness. -/
def genC6 : Nat → Level := fun _ => initLevel genP0

/-- Witness for C6 at concrete inputs: five descents and three ascents end at
`current_level_number = 3`. -/
theorem C6_witness : lifecycleRun genC6 specFov playerC1 5 3 = .ok 3 :=
  C6_lifecycle_depth genC6 specFov playerC1 5 3 (by decide)

end RogueLike
